import Mathlib

/-!
Verification of the date-conversion core of `src/services/pocketBase/pocketBase.ts`.

JavaScript strings are modelled as `List Char`; a JavaScript `Date` is modelled by
its time value: `none` for NaN, `some t` for a millisecond tick count `t`.  The
host functions `Date.prototype.toISOString` and `new Date(string)` are modelled by
an explicit proleptic-Gregorian calendar (`toISOString`, `jsDateParse`) following
the ECMAScript Date Time String Format.  Effect-typed results are modelled by
`JSOutcome`, with a separate constructor for a thrown JavaScript exception.
-/

/-- JavaScript strings are modelled as lists of characters. -/
abbrev JSStr := List Char

/-- Character list of a Lean string literal. -/
def str (s : String) : JSStr := s.data

/-- JS `String.prototype.split` with a single-character separator. -/
def splitOnChar (sep : Char) : JSStr → List JSStr
  | [] => [[]]
  | c :: cs =>
    match splitOnChar sep cs with
    | [] => [[]]
    | t :: ts => if c = sep then [] :: t :: ts else (c :: t) :: ts

/-- JS `Array.prototype.join` with a single-character separator. -/
def joinSep (sep : Char) : List JSStr → JSStr
  | [] => []
  | [x] => x
  | x :: y :: ys => x ++ sep :: joinSep sep (y :: ys)

/-- The decimal digit character for `n % 10`-sized values. -/
def dchar (n : Nat) : Char := Char.ofNat (48 + n)

/-- JS test for a decimal digit code unit. -/
def isDigitCh (c : Char) : Bool := decide ('0' ≤ c) && decide (c ≤ '9')

/-- Numeric value of a decimal digit character. -/
def dval (c : Char) : Nat := c.toNat - 48

/-- Two-digit zero-padded decimal rendering. -/
def pad2 (n : Nat) : JSStr := [dchar (n / 10 % 10), dchar (n % 10)]

/-- Three-digit zero-padded decimal rendering. -/
def pad3 (n : Nat) : JSStr := [dchar (n / 100 % 10), dchar (n / 10 % 10), dchar (n % 10)]

/-- Four-digit zero-padded decimal rendering. -/
def pad4 (n : Nat) : JSStr :=
  [dchar (n / 1000 % 10), dchar (n / 100 % 10), dchar (n / 10 % 10), dchar (n % 10)]

/-- Six-digit zero-padded decimal rendering (expanded-year form). -/
def pad6 (n : Nat) : JSStr :=
  [dchar (n / 100000 % 10), dchar (n / 10000 % 10), dchar (n / 1000 % 10),
   dchar (n / 100 % 10), dchar (n / 10 % 10), dchar (n % 10)]

/-! ## Proleptic Gregorian calendar

Days are counted from an internal day zero placed `epochShiftDays` days before
1970-01-01; years are shifted by `epochShiftYears` so that all arithmetic stays in
`Nat`.  `civilOfDoe` decomposes a day-of-era (a 400-year Gregorian cycle of 146097
days) by peeling off centuries (36524 days, the last century of an era one day
longer), 4-year cycles (1461 days, the last cycle of a short century one day
shorter) and years (365 days, the last year of a 4-year cycle one day longer);
months are located in the March-based year by the standard `(153 * mp + 2) / 5`
pattern. -/

/-- Year-of-era (0..400 after the February adjustment), month and day for a
day-of-era `doe < 146097`. -/
def civilOfDoe (doe : Nat) : Nat × Nat × Nat :=
  let c := min (doe / 36524) 3
  let dic := doe - 36524 * c
  let q := min (dic / 1461) 24
  let diq := dic - 1461 * q
  let r := min (diq / 365) 3
  let doy := diq - 365 * r
  let yoe := 100 * c + 4 * q + r
  let mp := (5 * doy + 2) / 153
  let d := doy - (153 * mp + 2) / 5 + 1
  let m := if mp < 10 then mp + 3 else mp - 9
  (yoe + (if m ≤ 2 then 1 else 0), m, d)

/-- Shifted civil date (year, month, day) of internal day number `n`. -/
def natCivilFromDays (n : Nat) : Nat × Nat × Nat :=
  let cv := civilOfDoe (n % 146097)
  (cv.1 + 400 * (n / 146097), cv.2.1, cv.2.2)

/-- Internal day number of a shifted civil date. -/
def natDaysFromCivil (y m d : Nat) : Nat :=
  let yAdj := y - (if m ≤ 2 then 1 else 0)
  let era := yAdj / 400
  let yoe := yAdj % 400
  let mp := if 2 < m then m - 3 else m + 9
  let doy := (153 * mp + 2) / 5 + d - 1
  era * 146097 + yoe * 365 + yoe / 4 - yoe / 100 + doy

/-- Gregorian leap-year test on a shifted (hence nonnegative) year. -/
def leapN (y : Nat) : Bool :=
  decide ((y % 4 = 0 ∧ ¬ y % 100 = 0) ∨ y % 400 = 0)

/-- Month length in a shifted year. -/
def daysInMonthN (y m : Nat) : Nat :=
  if m = 2 then (if leapN y then 29 else 28)
  else if m = 4 ∨ m = 6 ∨ m = 9 ∨ m = 11 then 30
  else 31

/-- Internal day number of 1970-01-01 (the Unix epoch). -/
def epochShiftDays : Nat := 365961968

/-- Internal year number of the proleptic Gregorian year 0. -/
def epochShiftYears : Nat := 1000000

/-- Civil date (proleptic Gregorian year, month, day) of the day `z` days after
1970-01-01. -/
def intCivilFromDays (z : Int) : Int × Nat × Nat :=
  let cv := natCivilFromDays (z + 365961968).toNat
  ((cv.1 : Int) - 1000000, cv.2.1, cv.2.2)

/-- Days between 1970-01-01 and the given proleptic Gregorian civil date. -/
def epochDaysFromCivil (y : Int) (m d : Nat) : Int :=
  (natDaysFromCivil (y + 1000000).toNat m d : Int) - 365961968

/-- Gregorian leap-year test on a proleptic Gregorian year. -/
def leapY (y : Int) : Bool :=
  decide ((y % 4 = 0 ∧ ¬ y % 100 = 0) ∨ y % 400 = 0)

/-- Month length in a proleptic Gregorian year. -/
def daysInMonthY (y : Int) (m : Nat) : Nat :=
  if m = 2 then (if leapY y then 29 else 28)
  else if m = 4 ∨ m = 6 ∨ m = 9 ∨ m = 11 then 30
  else 31

/-! ## The host serializer: `Date.prototype.toISOString` -/

/-- ECMAScript time values are NaN or integers of magnitude at most 8.64e15. -/
def tickInRange (t : Int) : Prop :=
  -8640000000000000 ≤ t ∧ t ≤ 8640000000000000

instance (t : Int) : Decidable (tickInRange t) := by
  unfold tickInRange; infer_instance

/-- Year rendering of `toISOString`: four digits for years 0..9999, otherwise the
expanded sign-plus-six-digits form. -/
def yearChars (y : Int) : JSStr :=
  if 0 ≤ y ∧ y ≤ 9999 then pad4 y.toNat
  else if y < 0 then '-' :: pad6 y.natAbs
  else '+' :: pad6 y.natAbs

/-- Calendar-date segment of the ISO serialization of tick count `t`. -/
def isoDatePart (t : Int) : JSStr :=
  let cv := intCivilFromDays (t / 86400000)
  yearChars cv.1 ++ '-' :: pad2 cv.2.1 ++ '-' :: pad2 cv.2.2

/-- Time segment of the ISO serialization of tick count `t`. -/
def isoTimePart (t : Int) : JSStr :=
  let ms := (t % 86400000).toNat
  pad2 (ms / 3600000) ++ ':' :: pad2 (ms / 60000 % 60) ++ ':' :: pad2 (ms / 1000 % 60)
    ++ '.' :: pad3 (ms % 1000) ++ ['Z']

/-- Model of `Date.prototype.toISOString` on a valid, in-range tick count. -/
def toISOString (t : Int) : JSStr := isoDatePart t ++ 'T' :: isoTimePart t

/-! ## The host parser: `new Date(string)` -/

/-- Read exactly `k` decimal digit characters, extending accumulator `acc`. -/
def readDigits : Nat → Nat → JSStr → Option (Nat × JSStr)
  | 0, acc, s => some (acc, s)
  | _ + 1, _, [] => none
  | k + 1, acc, c :: s => if isDigitCh c then readDigits k (10 * acc + dval c) s else none

/-- Year of the Date Time String Format: `YYYY`, `+YYYYYY` or `-YYYYYY`
(`-000000` excluded). -/
def parseYearPart (s : JSStr) : Option (Int × JSStr) :=
  match s with
  | [] => none
  | c :: cs =>
    if c = '+' then
      match readDigits 6 0 cs with
      | some (n, r) => some ((n : Int), r)
      | none => none
    else if c = '-' then
      match readDigits 6 0 cs with
      | some (n, r) => if n = 0 then none else some (-(n : Int), r)
      | none => none
    else
      match readDigits 4 0 (c :: cs) with
      | some (n, r) => some ((n : Int), r)
      | none => none

/-- Optional `-MM` and `-DD` components (missing components default to 1). -/
def parseMonthDay (s : JSStr) : Option (Nat × Nat × JSStr) :=
  match s with
  | '-' :: s1 =>
    match readDigits 2 0 s1 with
    | none => none
    | some (mo, r) =>
      match r with
      | '-' :: s2 =>
        match readDigits 2 0 s2 with
        | none => none
        | some (dy, r2) => some (mo, dy, r2)
      | _ => some (mo, 1, r)
  | _ => some (1, 1, s)

/-- Time of day: `HH:mm`, `HH:mm:ss` or `HH:mm:ss.sss`, yielding the millisecond of the day. -/
def parseTimeOfDay (s : JSStr) : Option (Nat × JSStr) :=
  match readDigits 2 0 s with
  | none => none
  | some (hh, r1) =>
    match r1 with
    | ':' :: s1 =>
      match readDigits 2 0 s1 with
      | none => none
      | some (mi, r2) =>
        let rest :=
          match r2 with
          | ':' :: s2 =>
            match readDigits 2 0 s2 with
            | none => none
            | some (ss, r3) =>
              match r3 with
              | '.' :: s3 =>
                match readDigits 3 0 s3 with
                | none => none
                | some (fr, r4) => some (ss, fr, r4)
              | _ => some (ss, 0, r3)
          | _ => some (0, 0, r2)
        match rest with
        | none => none
        | some (ss, fr, r5) =>
          if (hh ≤ 23 ∨ (hh = 24 ∧ mi = 0 ∧ ss = 0 ∧ fr = 0)) ∧ mi ≤ 59 ∧ ss ≤ 59 then
            some (hh * 3600000 + mi * 60000 + ss * 1000 + fr, r5)
          else none
    | _ => none

/-- Trailing time-zone designator: `Z` or `±HH:mm`, consuming the whole rest. -/
def parseOffset (s : JSStr) : Option Int :=
  match s with
  | ['Z'] => some 0
  | c :: cs =>
    if c = '+' ∨ c = '-' then
      match readDigits 2 0 cs with
      | none => none
      | some (oh, r1) =>
        match r1 with
        | ':' :: s1 =>
          match readDigits 2 0 s1 with
          | none => none
          | some (om, r2) =>
            match r2 with
            | [] =>
              if oh ≤ 23 ∧ om ≤ 59 then
                some ((if c = '-' then -1 else 1) * (((oh : Int) * 60 + (om : Int)) * 60000))
              else none
            | _ => none
        | _ => none
    else none
  | [] => none

/-- Acceptance of the ECMAScript Date Time String Format, before range clipping.
Date-only strings are interpreted as UTC.  A date-time string must carry an
explicit offset in this model: a missing offset designates local wall-clock time
in a host environment, which a pure model cannot represent, so such strings are
rejected here (no claim depends on them).  Nonconforming strings yield `none`. -/
def parseDateTimeString (s : JSStr) : Option Int :=
  match parseYearPart s with
  | none => none
  | some (y, r) =>
    match parseMonthDay r with
    | none => none
    | some (mo, dy, r2) =>
      if 1 ≤ mo ∧ mo ≤ 12 ∧ 1 ≤ dy ∧ dy ≤ daysInMonthY y mo then
        match r2 with
        | [] => some (epochDaysFromCivil y mo dy * 86400000)
        | 'T' :: r3 =>
          match parseTimeOfDay r3 with
          | none => none
          | some (msOfDay, r4) =>
            match parseOffset r4 with
            | none => none
            | some off => some (epochDaysFromCivil y mo dy * 86400000 + (msOfDay : Int) - off)
        | _ => none
      else none

/-- Model of `new Date(string)`: parse, then clip to the representable range
(out-of-range instants become NaN). -/
def jsDateParse (s : JSStr) : Option Int :=
  match parseDateTimeString s with
  | none => none
  | some t => if tickInRange t then some t else none

/-! ## The module under verification -/

/-- Model of a JavaScript `Date`: NaN or a millisecond tick count. -/
structure JSDate where
  ticks : Option Int
deriving DecidableEq

/-- The `Error<T>` record of the module: a `type` discriminant and a message. -/
structure PBError where
  type : JSStr
  message : JSStr
deriving DecidableEq

/-- Result of running one of the module's Effect values: a typed failure, a
success, or a JavaScript exception thrown while the Effect was being built. -/
inductive JSOutcome (α : Type) where
  | thrown (msg : JSStr)
  | error (e : PBError)
  | ok (v : α)
deriving DecidableEq

/-- Model of `Effect.map` on an outcome. -/
def JSOutcome.map {α β : Type} (f : α → β) : JSOutcome α → JSOutcome β
  | .thrown m => .thrown m
  | .error e => .error e
  | .ok v => .ok (f v)

/-- Model of `Effect.flatMap` on an outcome. -/
def JSOutcome.bind {α β : Type} : JSOutcome α → (α → JSOutcome β) → JSOutcome β
  | .thrown m, _ => .thrown m
  | .error e, _ => .error e
  | .ok v, f => f v

/-- Model of `dateToRFC3339Parts`, parameterized by the host serializer so that the
serializer-contract-violation branch can be discussed. -/
def dateToRFC3339PartsWith (iso : Int → JSStr) (date : JSDate) :
    JSOutcome (JSStr × JSStr) :=
  match date.ticks with
  | none => .error ⟨str "dateInvalid", str "The provided date is invalid."⟩
  | some t =>
    let parts := splitOnChar 'T' (iso t)
    let parts2 := if parts.length ≠ 2 then splitOnChar ' ' (iso t) else parts
    match parts2 with
    | [a, b] => .ok (a, b)
    | _ => .thrown (str "Expected date to ISO string to contain a \x27T\x27 or \x27 \x27 separator.")

/-- Model of `dateToRFC3339Parts` with the real serializer. -/
def dateToRFC3339Parts : JSDate → JSOutcome (JSStr × JSStr) :=
  dateToRFC3339PartsWith toISOString

/-- Model of `dateToRFC3339`. -/
def dateToRFC3339 (date : JSDate) : JSOutcome JSStr :=
  (dateToRFC3339Parts date).map (fun p => joinSep ' ' [p.1, p.2])

/-- The separator rewrite of `rfc3339ToDate`: `dateString.split(" ").join("T")`
when a space is present and no `T` is. -/
def rewriteSeparator (s : JSStr) : JSStr :=
  if s.contains ' ' && ! s.contains 'T' then joinSep 'T' (splitOnChar ' ' s) else s

/-- The tail of `rfc3339ToDate` after the empty check: construct the date from
the rewritten string, reporting the original string on failure. -/
def mkDateFrom (orig fed : JSStr) : JSOutcome JSDate :=
  let date : JSDate := ⟨jsDateParse fed⟩
  if date.ticks.isNone then
    .error ⟨str "dateInvalidFormat",
      str "The provided date string \x22" ++ orig ++ str "\x22 is invalid."⟩
  else .ok date

/-- Model of `rfc3339ToDate`. -/
def rfc3339ToDate (s : JSStr) : JSOutcome JSDate :=
  if s = [] then
    .error ⟨str "dateInvalidFormat", str "The provided date string is empty."⟩
  else mkDateFrom s (rewriteSeparator s)

/-- Model of `assertRFC3339Date`. -/
def assertRFC3339Date (s : JSStr) : JSOutcome JSStr :=
  (rfc3339ToDate s).bind dateToRFC3339

/-- The canonical space-separated serialization of tick count `t`. -/
def canonicalRFC3339 (t : Int) : JSStr := isoDatePart t ++ ' ' :: isoTimePart t

/-- Tail `-MM-DD HH:MM:SS.sssZ` of the shape claimed by the spec (§8). -/
def shapeTail (s : JSStr) : Bool :=
  match s with
  | ['-', m1, m2, '-', d1, d2, ' ', h1, h2, ':', i1, i2, ':', s1, s2, '.', f1, f2, f3, 'Z'] =>
    isDigitCh m1 && isDigitCh m2 && isDigitCh d1 && isDigitCh d2 && isDigitCh h1 &&
      isDigitCh h2 && isDigitCh i1 && isDigitCh i2 && isDigitCh s1 && isDigitCh s2 &&
      isDigitCh f1 && isDigitCh f2 && isDigitCh f3
  | _ => false

/-- The spec's claimed result shape `YYYY-MM-DD HH:MM:SS.sssZ` with a four-digit
year segment. -/
def matchesCanonicalShape (s : JSStr) : Bool :=
  match s with
  | y1 :: y2 :: y3 :: y4 :: rest =>
    isDigitCh y1 && isDigitCh y2 && isDigitCh y3 && isDigitCh y4 && shapeTail rest
  | _ => false

/-- Six decimal digits followed by the canonical shape tail (expanded years). -/
def sixDigitYearThenTail : JSStr → Bool
  | y1 :: y2 :: y3 :: y4 :: y5 :: y6 :: rest2 =>
    isDigitCh y1 && isDigitCh y2 && isDigitCh y3 && isDigitCh y4 && isDigitCh y5 &&
      isDigitCh y6 && shapeTail rest2
  | _ => false

/-- The result shape with the year segment also allowed in the expanded
`±YYYYYY` form that the serializer uses outside years 0..9999. -/
def matchesCanonicalShapeExt (s : JSStr) : Bool :=
  match s with
  | [] => false
  | c :: rest =>
    if c = '+' then sixDigitYearThenTail rest
    else if c = '-' then sixDigitYearThenTail rest
    else matchesCanonicalShape (c :: rest)

/-- Modelled from the spec: the separator rewrite as the spec states it
(§4.3 rule 2), replacing only the FIRST space by `T`. -/
def replaceFirstSpace : JSStr → JSStr
  | [] => []
  | c :: cs => if c = ' ' then 'T' :: cs else c :: replaceFirstSpace cs

/-! ## String lemmas -/

theorem splitOnChar_ne_nil (sep : Char) (s : JSStr) : splitOnChar sep s ≠ [] := by
  cases s with
  | nil => simp [splitOnChar]
  | cons c cs =>
    simp only [splitOnChar]
    cases h : splitOnChar sep cs with
    | nil => simp
    | cons t ts => by_cases hc : c = sep <;> simp [hc]

theorem splitOnChar_not_mem (sep : Char) (s : JSStr) (h : sep ∉ s) :
    splitOnChar sep s = [s] := by
  induction s with
  | nil => rfl
  | cons c cs ih =>
    simp only [List.mem_cons, not_or] at h
    simp only [splitOnChar, ih h.2, if_neg (Ne.symm h.1)]

theorem splitOnChar_append (sep : Char) (a b : JSStr) (ha : sep ∉ a) :
    splitOnChar sep (a ++ sep :: b) = a :: splitOnChar sep b := by
  induction a with
  | nil =>
    simp only [List.nil_append, splitOnChar]
    cases h : splitOnChar sep b with
    | nil => exact absurd h (splitOnChar_ne_nil sep b)
    | cons t ts => simp
  | cons c cs ih =>
    simp only [List.mem_cons, not_or] at ha
    simp [splitOnChar, ih ha.2, Ne.symm ha.1]

theorem joinSep_pair (sep : Char) (a b : JSStr) :
    joinSep sep [a, b] = a ++ sep :: b := by
  simp [joinSep]

theorem joinSep_splitOnChar (a b : Char) (s : JSStr) :
    joinSep b (splitOnChar a s) = s.map (fun c => if c = a then b else c) := by
  induction s with
  | nil => rfl
  | cons c cs ih =>
    simp only [splitOnChar, List.map]
    cases h : splitOnChar a cs with
    | nil => exact absurd h (splitOnChar_ne_nil a cs)
    | cons t ts =>
      rw [h] at ih
      by_cases hc : c = a
      · cases ts <;> simp_all [joinSep]
      · cases ts <;> simp_all [joinSep]

theorem map_no_change {f : Char → Char} {l : JSStr} (h : ∀ c ∈ l, f c = c) :
    l.map f = l := by
  induction l with
  | nil => rfl
  | cons c cs ih =>
    simp only [List.map, List.mem_cons] at *
    exact congrArg₂ List.cons (h c (Or.inl rfl)) (ih fun x hx => h x (Or.inr hx))

/-! ## Digit lemmas -/

theorem dchar_spec : ∀ k, k < 10 → isDigitCh (dchar k) = true ∧ dval (dchar k) = k ∧
    dchar k ≠ 'T' ∧ dchar k ≠ ' ' ∧ dchar k ≠ '+' ∧ dchar k ≠ '-' ∧ dchar k ≠ ':' ∧
    dchar k ≠ '.' ∧ dchar k ≠ 'Z' := by decide

theorem readDigits_pad2 (n : Nat) (h : n < 100) (rest : JSStr) :
    readDigits 2 0 (pad2 n ++ rest) = some (n, rest) := by
  have h1 := dchar_spec (n / 10 % 10) (by omega)
  have h2 := dchar_spec (n % 10) (by omega)
  simp only [pad2, List.cons_append, List.nil_append, readDigits, h1.1, h2.1,
    h1.2.1, h2.2.1, if_true]
  refine congrArg some (Prod.ext ?_ rfl)
  omega

theorem readDigits_pad3 (n : Nat) (h : n < 1000) (rest : JSStr) :
    readDigits 3 0 (pad3 n ++ rest) = some (n, rest) := by
  have h1 := dchar_spec (n / 100 % 10) (by omega)
  have h2 := dchar_spec (n / 10 % 10) (by omega)
  have h3 := dchar_spec (n % 10) (by omega)
  simp only [pad3, List.cons_append, List.nil_append, readDigits, h1.1, h2.1, h3.1,
    h1.2.1, h2.2.1, h3.2.1, if_true]
  refine congrArg some (Prod.ext ?_ rfl)
  omega

theorem readDigits_pad4 (n : Nat) (h : n < 10000) (rest : JSStr) :
    readDigits 4 0 (pad4 n ++ rest) = some (n, rest) := by
  have h1 := dchar_spec (n / 1000 % 10) (by omega)
  have h2 := dchar_spec (n / 100 % 10) (by omega)
  have h3 := dchar_spec (n / 10 % 10) (by omega)
  have h4 := dchar_spec (n % 10) (by omega)
  simp only [pad4, List.cons_append, List.nil_append, readDigits, h1.1, h2.1, h3.1, h4.1,
    h1.2.1, h2.2.1, h3.2.1, h4.2.1, if_true]
  refine congrArg some (Prod.ext ?_ rfl)
  omega

theorem readDigits_pad6 (n : Nat) (h : n < 1000000) (rest : JSStr) :
    readDigits 6 0 (pad6 n ++ rest) = some (n, rest) := by
  have h1 := dchar_spec (n / 100000 % 10) (by omega)
  have h2 := dchar_spec (n / 10000 % 10) (by omega)
  have h3 := dchar_spec (n / 1000 % 10) (by omega)
  have h4 := dchar_spec (n / 100 % 10) (by omega)
  have h5 := dchar_spec (n / 10 % 10) (by omega)
  have h6 := dchar_spec (n % 10) (by omega)
  simp only [pad6, List.cons_append, List.nil_append, readDigits, h1.1, h2.1, h3.1, h4.1,
    h5.1, h6.1, h1.2.1, h2.2.1, h3.2.1, h4.2.1, h5.2.1, h6.2.1, if_true]
  refine congrArg some (Prod.ext ?_ rfl)
  omega

theorem pad2_mem (n : Nat) (c : Char) (h : c ∈ pad2 n) : ∃ k, k < 10 ∧ c = dchar k := by
  simp only [pad2, List.mem_cons, List.not_mem_nil, or_false] at h
  rcases h with h | h
  · exact ⟨n / 10 % 10, by omega, h⟩
  · exact ⟨n % 10, by omega, h⟩

theorem pad3_mem (n : Nat) (c : Char) (h : c ∈ pad3 n) : ∃ k, k < 10 ∧ c = dchar k := by
  simp only [pad3, List.mem_cons, List.not_mem_nil, or_false] at h
  rcases h with h | h | h
  · exact ⟨n / 100 % 10, by omega, h⟩
  · exact ⟨n / 10 % 10, by omega, h⟩
  · exact ⟨n % 10, by omega, h⟩

theorem pad4_mem (n : Nat) (c : Char) (h : c ∈ pad4 n) : ∃ k, k < 10 ∧ c = dchar k := by
  simp only [pad4, List.mem_cons, List.not_mem_nil, or_false] at h
  rcases h with h | h | h | h
  · exact ⟨n / 1000 % 10, by omega, h⟩
  · exact ⟨n / 100 % 10, by omega, h⟩
  · exact ⟨n / 10 % 10, by omega, h⟩
  · exact ⟨n % 10, by omega, h⟩

theorem pad6_mem (n : Nat) (c : Char) (h : c ∈ pad6 n) : ∃ k, k < 10 ∧ c = dchar k := by
  simp only [pad6, List.mem_cons, List.not_mem_nil, or_false] at h
  rcases h with h | h | h | h | h | h
  · exact ⟨n / 100000 % 10, by omega, h⟩
  · exact ⟨n / 10000 % 10, by omega, h⟩
  · exact ⟨n / 1000 % 10, by omega, h⟩
  · exact ⟨n / 100 % 10, by omega, h⟩
  · exact ⟨n / 10 % 10, by omega, h⟩
  · exact ⟨n % 10, by omega, h⟩

/-! ## Calendar lemmas -/

set_option maxHeartbeats 2000000 in
theorem cascade_spec (doe c dic q diq r doy yoe : Nat) (hdoe : doe < 146097)
    (hc : c = min (doe / 36524) 3) (hdic : dic = doe - 36524 * c)
    (hq : q = min (dic / 1461) 24) (hdiq : diq = dic - 1461 * q)
    (hr : r = min (diq / 365) 3) (hdoy : doy = diq - 365 * r)
    (hyoe : yoe = 100 * c + 4 * q + r) :
    yoe ≤ 399 ∧ doy ≤ 365 ∧ 365 * yoe + yoe / 4 - yoe / 100 + doy = doe ∧
      365 * yoe + yoe / 4 - yoe / 100 ≤ doe ∧ (doy = 365 → leapN (yoe + 1) = true) := by
  subst hdic hdiq hdoy hyoe
  rw [Nat.min_def] at hc hq hr
  simp only [leapN, decide_eq_true_eq]
  split at hc <;> split at hq <;> split at hr <;>
    (have h4 : (100 * c + 4 * q + r) / 4 = 25 * c + q := by omega
     have h100 : (100 * c + 4 * q + r) / 100 = c := by omega
     omega)

set_option maxHeartbeats 2000000 in
theorem civil_core (doe yoe doy mp d m : Nat) (hdoe : doe < 146097)
    (hyoe : yoe ≤ 399) (hdoy : doy ≤ 365)
    (hsum : 365 * yoe + yoe / 4 - yoe / 100 + doy = doe)
    (hleap : doy = 365 → leapN (yoe + 1) = true)
    (hmp : mp = (5 * doy + 2) / 153)
    (hd : d = doy - (153 * mp + 2) / 5 + 1)
    (hm : m = if mp < 10 then mp + 3 else mp - 9) :
    1 ≤ m ∧ m ≤ 12 ∧ 1 ≤ d ∧
      d ≤ daysInMonthN (yoe + (if m ≤ 2 then 1 else 0)) m ∧
      natDaysFromCivil (yoe + (if m ≤ 2 then 1 else 0)) m d = doe ∧
      yoe + (if m ≤ 2 then 1 else 0) ≤ 400 ∧
      (if m ≤ 2 then 1 else 0) ≤ yoe + (if m ≤ 2 then 1 else 0) ∧
      yoe + (if m ≤ 2 then 1 else 0) - (if m ≤ 2 then 1 else 0) ≤ 399 := by
  simp only [leapN, decide_eq_true_eq] at hleap
  simp only [natDaysFromCivil, daysInMonthN, leapN, decide_eq_true_eq]
  rw [Nat.add_sub_cancel, Nat.mod_eq_of_lt (show yoe < 400 by omega),
    Nat.div_eq_of_lt (show yoe < 400 by omega)]
  by_cases h365 : doy = 365
  · have hlp := hleap h365
    subst hm hd hmp
    split_ifs <;> omega
  · subst hm hd hmp
    split_ifs <;> omega

theorem natDaysFromCivil_shift (y m d k : Nat) (hy : (if m ≤ 2 then 1 else 0) ≤ y) :
    natDaysFromCivil (y + 400 * k) m d = natDaysFromCivil y m d + 146097 * k := by
  simp only [natDaysFromCivil]
  split_ifs at * <;> omega

theorem leapN_shift (y k : Nat) : leapN (y + 400 * k) = leapN y := by
  simp only [leapN]
  exact decide_eq_decide.mpr (by omega)

theorem daysInMonthN_shift (y m k : Nat) :
    daysInMonthN (y + 400 * k) m = daysInMonthN y m := by
  simp only [daysInMonthN, leapN_shift]

theorem civilOfDoe_spec (doe : Nat) (h : doe < 146097) :
    1 ≤ (civilOfDoe doe).2.1 ∧ (civilOfDoe doe).2.1 ≤ 12 ∧ 1 ≤ (civilOfDoe doe).2.2 ∧
      (civilOfDoe doe).2.2 ≤ daysInMonthN (civilOfDoe doe).1 (civilOfDoe doe).2.1 ∧
      natDaysFromCivil (civilOfDoe doe).1 (civilOfDoe doe).2.1 (civilOfDoe doe).2.2 = doe ∧
      (civilOfDoe doe).1 ≤ 400 ∧
      (if (civilOfDoe doe).2.1 ≤ 2 then 1 else 0) ≤ (civilOfDoe doe).1 ∧
      (civilOfDoe doe).1 - (if (civilOfDoe doe).2.1 ≤ 2 then 1 else 0) ≤ 399 := by
  obtain ⟨h1, h2, h3, h4, h5⟩ := cascade_spec doe _ _ _ _ _ _ _ h rfl rfl rfl rfl rfl rfl rfl
  exact civil_core doe _ _ _ _ _ h h1 h2 h3 h5 rfl rfl rfl

theorem natCivil_spec (n : Nat) :
    1 ≤ (natCivilFromDays n).2.1 ∧ (natCivilFromDays n).2.1 ≤ 12 ∧
      1 ≤ (natCivilFromDays n).2.2 ∧
      (natCivilFromDays n).2.2 ≤ daysInMonthN (natCivilFromDays n).1 (natCivilFromDays n).2.1 ∧
      natDaysFromCivil (natCivilFromDays n).1 (natCivilFromDays n).2.1 (natCivilFromDays n).2.2
        = n ∧
      400 * (n / 146097) ≤ (natCivilFromDays n).1 ∧
      (natCivilFromDays n).1 ≤ 400 * (n / 146097) + 400 ∧
      (if (natCivilFromDays n).2.1 ≤ 2 then 1 else 0) ≤ (natCivilFromDays n).1 := by
  have hdoe : n % 146097 < 146097 := Nat.mod_lt _ (by norm_num)
  have key := civilOfDoe_spec (n % 146097) hdoe
  rcases hcv : civilOfDoe (n % 146097) with ⟨y0, m, d⟩
  rw [hcv] at key
  simp only at key
  have hn : natCivilFromDays n = (y0 + 400 * (n / 146097), m, d) := by
    simp only [natCivilFromDays, hcv]
  rw [hn]
  simp only
  obtain ⟨k1, k2, k3, k4, k5, k6, k7, k8⟩ := key
  refine ⟨k1, k2, k3, ?_, ?_, by omega, by omega, by omega⟩
  · rw [daysInMonthN_shift]
    exact k4
  · rw [natDaysFromCivil_shift y0 m d (n / 146097) k7, k5]
    omega

/-! ## Calendar lemmas over Int -/

theorem leapY_eq_leapN (Y : Nat) : leapY ((Y : Int) - 1000000) = leapN Y := by
  simp only [leapY, leapN]
  exact decide_eq_decide.mpr (by omega)

theorem daysInMonthY_eq (Y m : Nat) :
    daysInMonthY ((Y : Int) - 1000000) m = daysInMonthN Y m := by
  simp only [daysInMonthY, daysInMonthN, leapY_eq_leapN]

theorem daysInMonthY_le (y : Int) (m : Nat) : daysInMonthY y m ≤ 31 := by
  simp only [daysInMonthY]
  split_ifs <;> omega

theorem intCivil_spec (z : Int) (h1 : -100000000 ≤ z) (h2 : z ≤ 100000000) :
    1 ≤ (intCivilFromDays z).2.1 ∧ (intCivilFromDays z).2.1 ≤ 12 ∧
      1 ≤ (intCivilFromDays z).2.2 ∧
      (intCivilFromDays z).2.2 ≤ daysInMonthY (intCivilFromDays z).1 (intCivilFromDays z).2.1 ∧
      epochDaysFromCivil (intCivilFromDays z).1 (intCivilFromDays z).2.1
        (intCivilFromDays z).2.2 = z ∧
      -1000000 < (intCivilFromDays z).1 ∧ (intCivilFromDays z).1 < 1000000 := by
  have key := natCivil_spec (z + 365961968).toNat
  rcases hcv : natCivilFromDays (z + 365961968).toNat with ⟨Y, M, D⟩
  rw [hcv] at key
  simp only at key
  obtain ⟨k1, k2, k3, k4, k5, k6, k7, k8⟩ := key
  have hic : intCivilFromDays z = ((Y : Int) - 1000000, M, D) := by
    simp only [intCivilFromDays, hcv]
  rw [hic]
  simp only
  have hq : (z + 365961968).toNat / 146097 ≤ 3189 ∧ 1820 ≤ (z + 365961968).toNat / 146097 := by
    omega
  refine ⟨k1, k2, k3, ?_, ?_, by omega, by omega⟩
  · rw [daysInMonthY_eq]
    exact k4
  · simp only [epochDaysFromCivil]
    have harg : ((Y : Int) - 1000000 + 1000000).toNat = Y := by omega
    rw [harg, k5]
    omega

/-! ## Separator-freedom of the serialized segments -/

theorem yearChars_no_sep (y : Int) (c : Char) (hc : c ∈ yearChars y) :
    c ≠ 'T' ∧ c ≠ ' ' := by
  unfold yearChars at hc
  split_ifs at hc
  · obtain ⟨k, hk, rfl⟩ := pad4_mem _ _ hc
    have h := dchar_spec k hk
    exact ⟨h.2.2.1, h.2.2.2.1⟩
  · rcases List.mem_cons.mp hc with rfl | hc'
    · exact ⟨by decide, by decide⟩
    · obtain ⟨k, hk, rfl⟩ := pad6_mem _ _ hc'
      have h := dchar_spec k hk
      exact ⟨h.2.2.1, h.2.2.2.1⟩
  · rcases List.mem_cons.mp hc with rfl | hc'
    · exact ⟨by decide, by decide⟩
    · obtain ⟨k, hk, rfl⟩ := pad6_mem _ _ hc'
      have h := dchar_spec k hk
      exact ⟨h.2.2.1, h.2.2.2.1⟩

theorem all_mem_append {P : Char → Prop} {a b : JSStr} (ha : ∀ c ∈ a, P c)
    (hb : ∀ c ∈ b, P c) : ∀ c ∈ a ++ b, P c :=
  fun c hc => (List.mem_append.mp hc).elim (ha c) (hb c)

theorem all_mem_cons {P : Char → Prop} {x : Char} {a : JSStr} (hx : P x)
    (ha : ∀ c ∈ a, P c) : ∀ c ∈ x :: a, P c :=
  fun c hc => (List.mem_cons.mp hc).elim (fun h => h ▸ hx) (ha c)

theorem all_mem_nil {P : Char → Prop} : ∀ c ∈ ([] : JSStr), P c :=
  fun c hc => absurd hc (List.not_mem_nil c)

theorem pad2_no_sep (n : Nat) : ∀ c ∈ pad2 n, c ≠ 'T' ∧ c ≠ ' ' := by
  intro c hc
  obtain ⟨k, hk, rfl⟩ := pad2_mem _ _ hc
  have h := dchar_spec k hk
  exact ⟨h.2.2.1, h.2.2.2.1⟩

theorem pad3_no_sep (n : Nat) : ∀ c ∈ pad3 n, c ≠ 'T' ∧ c ≠ ' ' := by
  intro c hc
  obtain ⟨k, hk, rfl⟩ := pad3_mem _ _ hc
  have h := dchar_spec k hk
  exact ⟨h.2.2.1, h.2.2.2.1⟩

theorem isoDatePart_no_sep (t : Int) : ∀ c ∈ isoDatePart t, c ≠ 'T' ∧ c ≠ ' ' := by
  simp only [isoDatePart, List.append_assoc, List.cons_append]
  exact all_mem_append (fun c hc => yearChars_no_sep _ c hc)
    (all_mem_cons ⟨by decide, by decide⟩
      (all_mem_append (pad2_no_sep _)
        (all_mem_cons ⟨by decide, by decide⟩ (pad2_no_sep _))))

theorem isoTimePart_no_sep (t : Int) : ∀ c ∈ isoTimePart t, c ≠ 'T' ∧ c ≠ ' ' := by
  simp only [isoTimePart, List.append_assoc, List.cons_append]
  exact all_mem_append (pad2_no_sep _)
    (all_mem_cons ⟨by decide, by decide⟩
      (all_mem_append (pad2_no_sep _)
        (all_mem_cons ⟨by decide, by decide⟩
          (all_mem_append (pad2_no_sep _)
            (all_mem_cons ⟨by decide, by decide⟩
              (all_mem_append (pad3_no_sep _)
                (all_mem_cons ⟨by decide, by decide⟩ all_mem_nil)))))))

theorem toISO_split (t : Int) :
    splitOnChar 'T' (toISOString t) = [isoDatePart t, isoTimePart t] := by
  rw [toISOString,
    splitOnChar_append 'T' _ _ (fun hmem => (isoDatePart_no_sep t 'T' hmem).1 rfl),
    splitOnChar_not_mem 'T' _ (fun hmem => (isoTimePart_no_sep t 'T' hmem).1 rfl)]

/-! ## Parsing the serialized string back -/

theorem parseYearPart_pad4 (y : Int) (h0 : 0 ≤ y) (h9 : y ≤ 9999) (rest : JSStr) :
    parseYearPart (pad4 y.toNat ++ rest) = some (y, rest) := by
  have hd := dchar_spec (y.toNat / 1000 % 10) (by omega)
  have hrd := readDigits_pad4 y.toNat (by omega) rest
  simp only [pad4, List.cons_append, List.nil_append] at hrd ⊢
  simp [parseYearPart, hd.2.2.2.2.1, hd.2.2.2.2.2.1, hrd, Int.toNat_of_nonneg h0]

theorem parseYearPart_pad6_pos (y : Int) (h9 : 9999 < y) (hy : y < 1000000)
    (rest : JSStr) :
    parseYearPart ('+' :: (pad6 y.natAbs ++ rest)) = some (y, rest) := by
  have hrd := readDigits_pad6 y.natAbs (by omega) rest
  simp [parseYearPart, hrd, Int.natAbs_of_nonneg (show (0:Int) ≤ y from by omega)]

theorem parseYearPart_pad6_neg (y : Int) (hy : y < 0) (hb : -1000000 < y)
    (rest : JSStr) :
    parseYearPart ('-' :: (pad6 y.natAbs ++ rest)) = some (y, rest) := by
  have hrd := readDigits_pad6 y.natAbs (by omega) rest
  have hne : y.natAbs ≠ 0 := by omega
  simp [parseYearPart, hrd, hne]
  rw [abs_of_neg hy, neg_neg]

theorem parseMonthDay_pads (mo dy : Nat) (hmo : mo < 100) (hdy : dy < 100)
    (rest : JSStr) :
    parseMonthDay ('-' :: (pad2 mo ++ '-' :: (pad2 dy ++ rest))) = some (mo, dy, rest) := by
  have h1 := readDigits_pad2 mo hmo ('-' :: (pad2 dy ++ rest))
  have h2 := readDigits_pad2 dy hdy rest
  simp [parseMonthDay, h1, h2]

theorem parseTimeOfDay_pads (hh mi ss fr : Nat) (hhh : hh ≤ 23) (hmi : mi ≤ 59)
    (hss : ss ≤ 59) (hfr : fr < 1000) (rest : JSStr) :
    parseTimeOfDay (pad2 hh ++ ':' :: (pad2 mi ++ ':' :: (pad2 ss ++ '.' :: (pad3 fr ++ rest))))
      = some (hh * 3600000 + mi * 60000 + ss * 1000 + fr, rest) := by
  have h1 := readDigits_pad2 hh (by omega) (':' :: (pad2 mi ++ ':' :: (pad2 ss ++ '.' :: (pad3 fr ++ rest))))
  have h2 := readDigits_pad2 mi (by omega) (':' :: (pad2 ss ++ '.' :: (pad3 fr ++ rest)))
  have h3 := readDigits_pad2 ss (by omega) ('.' :: (pad3 fr ++ rest))
  have h4 := readDigits_pad3 fr hfr rest
  simp [parseTimeOfDay, h1, h2, h3, h4, Or.inl hhh, hmi, hss]

theorem toISO_norm (t : Int) :
    toISOString t = yearChars (intCivilFromDays (t / 86400000)).1 ++
      '-' :: (pad2 (intCivilFromDays (t / 86400000)).2.1 ++
      '-' :: (pad2 (intCivilFromDays (t / 86400000)).2.2 ++
      'T' :: (pad2 ((t % 86400000).toNat / 3600000) ++
      ':' :: (pad2 ((t % 86400000).toNat / 60000 % 60) ++
      ':' :: (pad2 ((t % 86400000).toNat / 1000 % 60) ++
      '.' :: (pad3 ((t % 86400000).toNat % 1000) ++ ['Z'])))))) := by
  simp [toISOString, isoDatePart, isoTimePart, List.append_assoc]

theorem jsClip_eq (x t : Int) (hx : x = t) (h1 : -8640000000000000 ≤ t)
    (h2 : t ≤ 8640000000000000) :
    (if tickInRange x then some x else none) = some t := by
  subst hx
  rw [if_pos ⟨h1, h2⟩]

set_option maxHeartbeats 1000000 in
theorem parse_toISO (t : Int) (ht : tickInRange t) : jsDateParse (toISOString t) = some t := by
  obtain ⟨ht1, ht2⟩ := ht
  have hzb1 : -100000000 ≤ t / 86400000 := by omega
  have hzb2 : t / 86400000 ≤ 100000000 := by omega
  have civ := intCivil_spec (t / 86400000) hzb1 hzb2
  have hrw := toISO_norm t
  rcases hic : intCivilFromDays (t / 86400000) with ⟨Y, M, D⟩
  rw [hic] at civ hrw
  dsimp only at civ hrw
  obtain ⟨c1, c2, c3, c4, c5, c6, c7⟩ := civ
  have hms0 : (0:Int) ≤ t % 86400000 := by omega
  have hms : (t % 86400000).toNat < 86400000 := by omega
  have hD31 : D ≤ 31 := le_trans c4 (daysInMonthY_le _ _)
  have htime := parseTimeOfDay_pads ((t % 86400000).toNat / 3600000)
    ((t % 86400000).toNat / 60000 % 60) ((t % 86400000).toNat / 1000 % 60)
    ((t % 86400000).toNat % 1000) (by omega) (by omega) (by omega) (by omega) ['Z']
  have hmd := parseMonthDay_pads M D (by omega) (by omega)
    ('T' :: (pad2 ((t % 86400000).toNat / 3600000) ++
      ':' :: (pad2 ((t % 86400000).toNat / 60000 % 60) ++
      ':' :: (pad2 ((t % 86400000).toNat / 1000 % 60) ++
      '.' :: (pad3 ((t % 86400000).toNat % 1000) ++ ['Z'])))))
  have hval : 1 ≤ M ∧ M ≤ 12 ∧ 1 ≤ D ∧ D ≤ daysInMonthY Y M := ⟨c1, c2, c3, c4⟩
  have hsum : epochDaysFromCivil Y M D * 86400000 +
      ((t % 86400000).toNat / 3600000 * 3600000 + (t % 86400000).toNat / 60000 % 60 * 60000 +
        (t % 86400000).toNat / 1000 % 60 * 1000 + (t % 86400000).toNat % 1000 : Nat) - 0 = t := by
    rw [c5]
    omega
  by_cases hcase : 0 ≤ Y ∧ Y ≤ 9999
  · have hyc : yearChars Y = pad4 Y.toNat := by
      unfold yearChars
      rw [if_pos hcase]
    rw [hrw, hyc]
    simp only [jsDateParse, parseDateTimeString, parseYearPart_pad4 Y hcase.1 hcase.2,
      hmd, htime, if_pos hval, parseOffset]
    exact jsClip_eq _ t (by omega) ht1 ht2
  · by_cases hneg : Y < 0
    · have hyc : yearChars Y = '-' :: pad6 Y.natAbs := by
        unfold yearChars
        rw [if_neg hcase, if_pos hneg]
      rw [hrw, hyc, List.cons_append]
      simp only [jsDateParse, parseDateTimeString, parseYearPart_pad6_neg Y hneg c6,
        hmd, htime, if_pos hval, parseOffset]
      exact jsClip_eq _ t (by omega) ht1 ht2
    · have hyc : yearChars Y = '+' :: pad6 Y.natAbs := by
        unfold yearChars
        rw [if_neg hcase, if_neg hneg]
      rw [hrw, hyc, List.cons_append]
      simp only [jsDateParse, parseDateTimeString,
        parseYearPart_pad6_pos Y (by omega) c7, hmd, htime, if_pos hval, parseOffset]
      exact jsClip_eq _ t (by omega) ht1 ht2

/-! ## The formatter on valid dates -/

theorem dateToRFC3339Parts_ok (t : Int) :
    dateToRFC3339Parts ⟨some t⟩ = .ok (isoDatePart t, isoTimePart t) := by
  simp [dateToRFC3339Parts, dateToRFC3339PartsWith, toISO_split]

theorem dateToRFC3339_ok (t : Int) :
    dateToRFC3339 ⟨some t⟩ = .ok (canonicalRFC3339 t) := by
  simp [dateToRFC3339, dateToRFC3339Parts_ok, JSOutcome.map, canonicalRFC3339, joinSep_pair]

theorem contains_true_of_mem {l : JSStr} {a : Char} (h : a ∈ l) : l.contains a = true :=
  List.elem_eq_true_of_mem h

theorem contains_false_of_not_mem {l : JSStr} {a : Char} (h : a ∉ l) :
    l.contains a = false := by
  cases hc : l.contains a
  · rfl
  · exact absurd (List.elem_iff.mp hc) h

theorem canonical_contains_space (t : Int) : (canonicalRFC3339 t).contains ' ' = true :=
  contains_true_of_mem (by simp [canonicalRFC3339])

theorem canonical_not_mem_T (t : Int) : 'T' ∉ canonicalRFC3339 t := by
  simp only [canonicalRFC3339, List.mem_append, List.mem_cons]
  rintro (h | h | h)
  · exact (isoDatePart_no_sep t 'T' h).1 rfl
  · exact absurd h (by decide)
  · exact (isoTimePart_no_sep t 'T' h).1 rfl

theorem canonical_contains_T (t : Int) : (canonicalRFC3339 t).contains 'T' = false :=
  contains_false_of_not_mem (canonical_not_mem_T t)

theorem rewrite_canonical (t : Int) :
    rewriteSeparator (canonicalRFC3339 t) = toISOString t := by
  rw [rewriteSeparator, if_pos (by rw [canonical_contains_space, canonical_contains_T]; rfl)]
  rw [canonicalRFC3339,
    splitOnChar_append ' ' _ _ (fun h => (isoDatePart_no_sep t ' ' h).2 rfl),
    splitOnChar_not_mem ' ' _ (fun h => (isoTimePart_no_sep t ' ' h).2 rfl),
    joinSep_pair, toISOString]

theorem canonical_ne_nil (t : Int) : canonicalRFC3339 t ≠ [] := by
  simp [canonicalRFC3339]

theorem rfc3339ToDate_canonical (t : Int) (ht : tickInRange t) :
    rfc3339ToDate (canonicalRFC3339 t) = .ok ⟨some t⟩ := by
  rw [rfc3339ToDate, if_neg (canonical_ne_nil t), mkDateFrom]
  simp [rewrite_canonical, parse_toISO t ht]

/-! ## The separator rewrite in general -/

theorem rewriteSeparator_eq_map (s : JSStr) (hsp : s.contains ' ' = true)
    (hT : s.contains 'T' = false) :
    rewriteSeparator s = s.map (fun c => if c = ' ' then 'T' else c) := by
  rw [rewriteSeparator, if_pos (by rw [hsp, hT]; rfl), joinSep_splitOnChar]

theorem rewriteSeparator_id_of_T (s : JSStr) (hT : s.contains 'T' = true) :
    rewriteSeparator s = s := by
  rw [rewriteSeparator, if_neg]
  rw [hT]
  simp

theorem rewriteSeparator_id_of_no_space (s : JSStr) (hsp : s.contains ' ' = false) :
    rewriteSeparator s = s := by
  rw [rewriteSeparator, if_neg]
  rw [hsp]
  simp

/-! ## Inversion of the parser pipeline -/

theorem jsDateParse_range (s : JSStr) (t : Int) (h : jsDateParse s = some t) :
    tickInRange t := by
  rw [jsDateParse] at h
  cases hp : parseDateTimeString s with
  | none => rw [hp] at h; exact absurd h (by simp)
  | some x =>
    rw [hp] at h
    dsimp only at h
    split at h
    · cases h
      assumption
    · exact absurd h (by simp)

theorem rfc3339ToDate_ok_ticks (s : JSStr) (d : JSDate) (h : rfc3339ToDate s = .ok d) :
    ∃ t, d.ticks = some t ∧ tickInRange t := by
  rw [rfc3339ToDate] at h
  split at h
  · exact absurd h (by simp)
  · rw [mkDateFrom] at h
    dsimp only at h
    split at h
    · exact absurd h (by simp)
    · rename_i hnone
      cases h
      cases hp : jsDateParse (rewriteSeparator s) with
      | none => rw [hp] at hnone; exact absurd rfl hnone
      | some t => exact ⟨t, rfl, jsDateParse_range _ t hp⟩

/-! ## Counting the separator -/

theorem toISO_count_T (t : Int) : (toISOString t).count 'T' = 1 := by
  rw [toISOString, List.count_append]
  have ha : (isoDatePart t).count 'T' = 0 :=
    List.count_eq_zero.mpr (fun h => (isoDatePart_no_sep t 'T' h).1 rfl)
  have hb : (isoTimePart t).count 'T' = 0 :=
    List.count_eq_zero.mpr (fun h => (isoTimePart_no_sep t 'T' h).1 rfl)
  rw [ha, List.count_cons_self, hb]

/-! ## The canonical result shape -/

theorem canonical_norm (t : Int) :
    canonicalRFC3339 t = yearChars (intCivilFromDays (t / 86400000)).1 ++
      '-' :: (pad2 (intCivilFromDays (t / 86400000)).2.1 ++
      '-' :: (pad2 (intCivilFromDays (t / 86400000)).2.2 ++
      ' ' :: (pad2 ((t % 86400000).toNat / 3600000) ++
      ':' :: (pad2 ((t % 86400000).toNat / 60000 % 60) ++
      ':' :: (pad2 ((t % 86400000).toNat / 1000 % 60) ++
      '.' :: (pad3 ((t % 86400000).toNat % 1000) ++ ['Z'])))))) := by
  simp [canonicalRFC3339, isoDatePart, isoTimePart, List.append_assoc]

theorem isDigitCh_dchar_mod (m : Nat) : isDigitCh (dchar (m % 10)) = true :=
  (dchar_spec (m % 10) (by omega)).1

set_option maxHeartbeats 1000000 in
theorem shape_canonical (t : Int) :
    matchesCanonicalShapeExt (canonicalRFC3339 t) = true := by
  have hrw := canonical_norm t
  rcases hic : intCivilFromDays (t / 86400000) with ⟨Y, M, D⟩
  rw [hic] at hrw
  dsimp only at hrw
  rw [hrw]
  by_cases hcase : 0 ≤ Y ∧ Y ≤ 9999
  · have hyc : yearChars Y = pad4 Y.toNat := by
      unfold yearChars
      rw [if_pos hcase]
    have hplus := (dchar_spec (Y.toNat / 1000 % 10) (by omega)).2.2.2.2.1
    have hminus := (dchar_spec (Y.toNat / 1000 % 10) (by omega)).2.2.2.2.2.1
    rw [hyc]
    simp [pad4, pad2, pad3, List.cons_append, matchesCanonicalShapeExt, hplus, hminus,
      matchesCanonicalShape, shapeTail, isDigitCh_dchar_mod]
  · by_cases hneg : Y < 0
    · have hyc : yearChars Y = '-' :: pad6 Y.natAbs := by
        unfold yearChars
        rw [if_neg hcase, if_pos hneg]
      rw [hyc]
      simp [pad6, pad2, pad3, List.cons_append, matchesCanonicalShapeExt,
        sixDigitYearThenTail, shapeTail, isDigitCh_dchar_mod]
    · have hyc : yearChars Y = '+' :: pad6 Y.natAbs := by
        unfold yearChars
        rw [if_neg hcase, if_neg hneg]
      rw [hyc]
      simp [pad6, pad2, pad3, List.cons_append, matchesCanonicalShapeExt,
        sixDigitYearThenTail, shapeTail, isDigitCh_dchar_mod]

/-! ## Model anchors

The model of the host date functions is pinned down on the values the spec uses
as examples. -/

theorem epoch_civil_anchor : intCivilFromDays 0 = (1970, 1, 1) := by decide

theorem epoch_iso_anchor : toISOString 0 = str "1970-01-01T00:00:00.000Z" := by decide

theorem normalize_T_example :
    assertRFC3339Date (str "2025-03-28T12:30:45.000Z") =
      .ok (str "2025-03-28 12:30:45.000Z") := by decide

theorem normalize_space_example :
    assertRFC3339Date (str "2025-03-28 12:30:45.000Z") =
      .ok (str "2025-03-28 12:30:45.000Z") := by decide

/-! ## The claims -/

/-- C1: for every valid `Date` (a non-NaN, hence in-range, tick count `t`),
parsing the success value of `dateToRFC3339` back with `rfc3339ToDate` succeeds
with a `Date` whose tick count is again `t`. -/
theorem claim1_parse_of_format_roundtrip (t : Int) (s : JSStr) (ht : tickInRange t)
    (hs : dateToRFC3339 ⟨some t⟩ = .ok s) : rfc3339ToDate s = .ok ⟨some t⟩ := by
  rw [dateToRFC3339_ok] at hs
  injection hs with h
  rw [← h]
  exact rfc3339ToDate_canonical t ht

theorem claim1_witness :
    rfc3339ToDate (str "1970-01-01 00:00:00.000Z") = .ok ⟨some 0⟩ :=
  claim1_parse_of_format_roundtrip 0 (str "1970-01-01 00:00:00.000Z") (by decide) (by decide)

/-- C2: `assertRFC3339Date` is idempotent on accepted inputs: if it succeeds with
result `r`, then applying it to `r` succeeds with the same `r`. -/
theorem claim2_assert_idempotent (s r : JSStr) (h : assertRFC3339Date s = .ok r) :
    assertRFC3339Date r = .ok r := by
  rw [assertRFC3339Date] at h
  cases hp : rfc3339ToDate s with
  | thrown m => rw [hp] at h; exact absurd h (by simp [JSOutcome.bind])
  | error e => rw [hp] at h; exact absurd h (by simp [JSOutcome.bind])
  | ok d =>
    rw [hp] at h
    simp only [JSOutcome.bind] at h
    obtain ⟨t, htick, hrange⟩ := rfc3339ToDate_ok_ticks s d hp
    obtain ⟨ticks⟩ := d
    simp only at htick
    subst htick
    rw [dateToRFC3339_ok] at h
    injection h with h
    rw [← h, assertRFC3339Date, rfc3339ToDate_canonical t hrange]
    simp only [JSOutcome.bind]
    exact dateToRFC3339_ok t

theorem claim2_witness :
    assertRFC3339Date (str "1970-01-01 00:00:00.000Z") =
      .ok (str "1970-01-01 00:00:00.000Z") :=
  claim2_assert_idempotent (str "1970-01-01T00:00:00.000Z")
    (str "1970-01-01 00:00:00.000Z") (by decide)

/-- C3 counterexample: on an input with two spaces and no `T`, the code's rewrite
`split(" ").join("T")` replaces EVERY space, not only the first one, so the string
handed to the date constructor differs from the claim's
first-space-only rewrite. -/
theorem claim3_counterexample :
    (str "a b c").contains ' ' = true ∧ (str "a b c").contains 'T' = false ∧
      rewriteSeparator (str "a b c") = str "aTbTc" ∧
      replaceFirstSpace (str "a b c") = str "aTb c" ∧
      rewriteSeparator (str "a b c") ≠ replaceFirstSpace (str "a b c") := by decide

/-- C3 amended: for a non-empty input containing a space and no `T`,
`rfc3339ToDate` constructs the `Date` from the input with EVERY space replaced by
`T`; for an input containing `T` or containing no space it constructs the `Date`
from the input unchanged. -/
theorem claim3_amended_rewrite (s : JSStr) (hne : s ≠ []) :
    (s.contains ' ' = true → s.contains 'T' = false →
      rfc3339ToDate s = mkDateFrom s (s.map (fun c => if c = ' ' then 'T' else c))) ∧
    (s.contains 'T' = true ∨ s.contains ' ' = false →
      rfc3339ToDate s = mkDateFrom s s) := by
  constructor
  · intro hsp hT
    rw [rfc3339ToDate, if_neg hne, rewriteSeparator_eq_map s hsp hT]
  · intro hcase
    rw [rfc3339ToDate, if_neg hne]
    rcases hcase with hT | hsp
    · rw [rewriteSeparator_id_of_T s hT]
    · rw [rewriteSeparator_id_of_no_space s hsp]

theorem claim3_amended_witness :
    rfc3339ToDate (str "a b") =
      mkDateFrom (str "a b") ((str "a b").map (fun c => if c = ' ' then 'T' else c)) ∧
    rfc3339ToDate (str "T") = mkDateFrom (str "T") (str "T") :=
  ⟨(claim3_amended_rewrite (str "a b") (by decide)).1 (by decide) (by decide),
   (claim3_amended_rewrite (str "T") (by decide)).2 (Or.inl (by decide))⟩

/-- C4 counterexample: at the largest representable tick count the serializer
uses the expanded six-digit year form, so the result does not match the
`YYYY-MM-DD HH:MM:SS.sssZ` shape with a four-digit year. -/
theorem claim4_counterexample :
    dateToRFC3339 ⟨some 8640000000000000⟩ = .ok (str "+275760-09-13 00:00:00.000Z") ∧
      matchesCanonicalShape (str "+275760-09-13 00:00:00.000Z") = false := by decide

/-- C4 amended: for every valid `Date`, `dateToRFC3339` succeeds and its result
matches the shape `YYYY-MM-DD HH:MM:SS.sssZ` with the year segment either four
digits or the expanded sign-plus-six-digit form. -/
theorem claim4_amended_shape (t : Int) (s : JSStr) (ht : tickInRange t)
    (hs : dateToRFC3339 ⟨some t⟩ = .ok s) : matchesCanonicalShapeExt s = true := by
  rw [dateToRFC3339_ok] at hs
  injection hs with h
  rw [← h]
  exact shape_canonical t

theorem claim4_amended_witness :
    matchesCanonicalShapeExt (str "1970-01-01 00:00:00.000Z") = true :=
  claim4_amended_shape 0 (str "1970-01-01 00:00:00.000Z") (by decide) (by decide)

/-- C5: for every non-empty input whose (rewritten) date construction is invalid,
`rfc3339ToDate` fails with `dateInvalidFormat` and a message embedding the
original input verbatim. -/
theorem claim5_invalid_format_message (s : JSStr) (hne : s ≠ [])
    (hfail : jsDateParse (rewriteSeparator s) = none) :
    rfc3339ToDate s = .error ⟨str "dateInvalidFormat",
      str "The provided date string \x22" ++ s ++ str "\x22 is invalid."⟩ := by
  rw [rfc3339ToDate, if_neg hne, mkDateFrom]
  simp [hfail]

theorem claim5_witness :
    rfc3339ToDate (str "not-a-date") = .error ⟨str "dateInvalidFormat",
      str "The provided date string \x22" ++ str "not-a-date" ++ str "\x22 is invalid."⟩ :=
  claim5_invalid_format_message (str "not-a-date") (by decide) (by decide)

/-- C6: the empty string fails with `dateInvalidFormat` and the exact message
`The provided date string is empty.`. -/
theorem claim6_empty_string :
    rfc3339ToDate [] = .error ⟨str "dateInvalidFormat",
      str "The provided date string is empty."⟩ := by decide

/-- C7: an invalid `Date` (NaN tick count) makes `dateToRFC3339Parts` fail with
`dateInvalid` and the exact message `The provided date is invalid.`, and
`dateToRFC3339` propagates that identical error value unchanged. -/
theorem claim7_invalid_date (d : JSDate) (h : d.ticks = none) :
    dateToRFC3339Parts d = .error ⟨str "dateInvalid", str "The provided date is invalid."⟩ ∧
    dateToRFC3339 d = .error ⟨str "dateInvalid", str "The provided date is invalid."⟩ := by
  have h1 : dateToRFC3339Parts d =
      .error ⟨str "dateInvalid", str "The provided date is invalid."⟩ := by
    obtain ⟨ticks⟩ := d
    simp only at h
    subst h
    rfl
  exact ⟨h1, by rw [dateToRFC3339, h1]; rfl⟩

theorem claim7_witness :
    dateToRFC3339Parts ⟨none⟩ =
      .error ⟨str "dateInvalid", str "The provided date is invalid."⟩ ∧
    dateToRFC3339 ⟨none⟩ =
      .error ⟨str "dateInvalid", str "The provided date is invalid."⟩ :=
  claim7_invalid_date ⟨none⟩ rfl

/-- C9: with the real serializer, whose output for a valid instant contains
exactly one `T`, splitting yields exactly two segments and the throwing branch is
never taken; with a serializer whose output splits into two segments under
neither separator, the operation is aborted by the thrown exception rather than a
typed error. -/
theorem claim9_throw_unreachable :
    (∀ t : Int, tickInRange t →
      (toISOString t).count 'T' = 1 ∧
      splitOnChar 'T' (toISOString t) = [isoDatePart t, isoTimePart t] ∧
      dateToRFC3339Parts ⟨some t⟩ = .ok (isoDatePart t, isoTimePart t)) ∧
    (∀ (iso : Int → JSStr) (t : Int),
      (splitOnChar 'T' (iso t)).length ≠ 2 → (splitOnChar ' ' (iso t)).length ≠ 2 →
      dateToRFC3339PartsWith iso ⟨some t⟩ =
        .thrown (str "Expected date to ISO string to contain a \x27T\x27 or \x27 \x27 separator.")) := by
  constructor
  · intro t ht
    exact ⟨toISO_count_T t, toISO_split t, dateToRFC3339Parts_ok t⟩
  · intro iso t h1 h2
    simp only [dateToRFC3339PartsWith]
    rw [if_pos h1]
    rcases hsp : splitOnChar ' ' (iso t) with _ | ⟨a, _ | ⟨b, _ | ⟨c, rest2⟩⟩⟩
    · rfl
    · rfl
    · exact absurd (by rw [hsp]; rfl) h2
    · rfl

theorem claim9_witness :
    dateToRFC3339Parts ⟨some 0⟩ = .ok (str "1970-01-01", str "00:00:00.000Z") ∧
    dateToRFC3339PartsWith (fun _ => []) ⟨some 0⟩ =
      .thrown (str "Expected date to ISO string to contain a \x27T\x27 or \x27 \x27 separator.") := by
  constructor
  · have h := (claim9_throw_unreachable.1 0 (by decide)).2.2
    rw [h]
    decide
  · exact claim9_throw_unreachable.2 (fun _ => []) 0 (by decide) (by decide)

/-- C10: for every valid `Date`, the success value of `dateToRFC3339` is exactly
the ISO serialization with its single `T` separator replaced by a single space
and nothing else altered. -/
theorem claim10_space_for_T (t : Int) (ht : tickInRange t) :
    dateToRFC3339 ⟨some t⟩ =
      .ok ((toISOString t).map (fun c => if c = 'T' then ' ' else c)) ∧
    (toISOString t).count 'T' = 1 := by
  refine ⟨?_, toISO_count_T t⟩
  rw [dateToRFC3339_ok]
  congr 1
  rw [canonicalRFC3339, toISOString, List.map_append, List.map_cons, if_pos rfl]
  congr 1
  · exact (map_no_change (fun c hc => if_neg ((isoDatePart_no_sep t c hc).1))).symm
  · congr 1
    exact (map_no_change (fun c hc => if_neg ((isoTimePart_no_sep t c hc).1))).symm

theorem claim10_witness :
    dateToRFC3339 ⟨some 0⟩ = .ok (str "1970-01-01 00:00:00.000Z") ∧
    (toISOString 0).count 'T' = 1 := by
  have h := claim10_space_for_T 0 (by decide)
  exact ⟨by rw [h.1]; decide, h.2⟩

/-- C8: any input containing `T` is never separator-rewritten: the `Date` is
constructed from the input exactly as given, spaces or not. -/
theorem claim8_T_never_rewritten (s : JSStr) (hT : s.contains 'T' = true) :
    rewriteSeparator s = s ∧ (s ≠ [] → rfc3339ToDate s = mkDateFrom s s) := by
  refine ⟨rewriteSeparator_id_of_T s hT, fun hne => ?_⟩
  rw [rfc3339ToDate, if_neg hne, rewriteSeparator_id_of_T s hT]

theorem claim8_witness :
    rewriteSeparator (str "2025-03-28T12:30:45.000Z") = str "2025-03-28T12:30:45.000Z" ∧
    rfc3339ToDate (str "2025-03-28T12:30:45.000Z") =
      mkDateFrom (str "2025-03-28T12:30:45.000Z") (str "2025-03-28T12:30:45.000Z") := by
  have h := claim8_T_never_rewritten (str "2025-03-28T12:30:45.000Z") (by decide)
  exact ⟨h.1, h.2 (by decide)⟩
